import Mathlib

/-!
Shallow embedding of `src/doaj_api.py` (DOAJ article search proxy).

The embedding models the upstream DOAJ HTTP endpoint as an oracle
`Upstream : String → Int → Nat → FetchResult` mapping the request
parameters `(q, pageSize, page)` to either a transport-level failure
(any exception raised by `requests.get` / `raise_for_status` /
`.json()`) or a successful response carrying the `results` list of raw
records (`data.get("results", [])`; a missing key and an empty list
coincide in `success []`).

Python `dict.get(key, default)` on the nested JSON objects is modelled
by `Option` fields with `getD`.  Record normalization can raise
(`bibjson.get("link", [{}])[0]` raises `IndexError` when the `link`
list is present but empty), so it returns `Except String Article`, and
the whole search returns `Except String _` — `.error` models an
uncaught Python exception propagating to the caller.

For verification the embedding additionally threads ghost data through
the loops, none of which alters the computed article list:
* each issued request is recorded in a trace (`Request`, including the
  ghost field `accLen`, the number of accumulated results at issue
  time);
* inside the year-ranged loop each appended article is tagged with the
  year of the query that fetched it; `search_doaj` projects the tags
  away.
-/

/-- One author entry of `bibjson.author`; `name` is the `"name"` key. -/
structure Author where
  name : Option String
deriving DecidableEq, Repr

/-- One link entry of `bibjson.link`; `url` is the `"url"` key. -/
structure Link where
  url : Option String
deriving DecidableEq, Repr

/-- The `bibjson.journal` nested object; `title` is its `"title"` key. -/
structure JournalObj where
  title : Option String
deriving DecidableEq, Repr

/-- The `bibjson` nested object of an upstream record. -/
structure Bibjson where
  journal : Option JournalObj
  title : Option String
  author : Option (List Author)
  year : Option String
  link : Option (List Link)
deriving DecidableEq, Repr

/-- A raw upstream record; `bibjson` is its `"bibjson"` key. -/
structure RawRecord where
  bibjson : Option Bibjson
deriving DecidableEq, Repr

/-- The empty JSON object as a `JournalObj` (`.get("journal", {})` default). -/
def JournalObj.empty : JournalObj := ⟨none⟩

/-- The empty JSON object as a `Bibjson` (`record.get("bibjson", {})` default). -/
def Bibjson.empty : Bibjson := ⟨none, none, none, none, none⟩

/-- The normalized output record (the dict appended to `results`,
validated against the pydantic `Article` model: all five fields always
present). `Year` is a `Nat`: the code produces `int(s)` for a digit
string `s` (hence nonnegative) and `0` otherwise. -/
structure Article where
  Journal : String
  Title : String
  Authors : String
  Year : Nat
  URL : String
deriving DecidableEq, Repr

/-- Python `str.isdigit` restricted to ASCII strings: true iff the string is
nonempty and all characters are decimal digits. -/
def pyIsDigit (s : String) : Bool :=
  !s.isEmpty && s.data.all Char.isDigit

/-- Python truthiness test `not x` on an `Optional[int]`: `None` and `0` are
falsy. The source guards the unranged path with
`if not year_from or not year_to`. -/
def isFalsy : Option Int → Bool
  | none => true
  | some n => n == 0

/-- Authors extraction:
`", ".join([a.get("name", "") for a in bibjson.get("author", []) if a.get("name")])`.
The filter keeps authors whose `name` is present and non-empty. -/
def joinAuthors (authors : List Author) : String :=
  String.intercalate ", "
    (authors.filterMap fun a =>
      match a.name with
      | some n => if n = "" then none else some n
      | none => none)

/-- Record normalization: the dict literal built for each record in
`search_doaj` (lines 41-47 and 78-84 of the source, which are identical).
`URL` comes from `bibjson.get("link", [{}])[0].get("url", "")`: a *missing*
`link` key defaults to `[{}]` whose first element yields `""`, but a
*present empty* list makes `[0]` raise `IndexError`, modelled as
`.error`. -/
def normalizeRecord (record : RawRecord) : Except String Article :=
  let bibjson := record.bibjson.getD Bibjson.empty
  let yearStr := bibjson.year.getD ""
  match bibjson.link with
  | some [] => .error "IndexError: list index out of range"
  | link =>
    .ok
      { Journal := (bibjson.journal.getD JournalObj.empty).title.getD ""
        Title := bibjson.title.getD ""
        Authors := joinAuthors (bibjson.author.getD [])
        Year := if pyIsDigit yearStr then (yearStr.toNat?).getD 0 else 0
        URL :=
          match link with
          | some (l :: _) => l.url.getD ""
          | _ => "" }

/-- Result of one outbound call: `failure` is any exception caught by the
`try`/`except` around `requests.get` (timeout, non-2xx status, malformed
JSON); `success records` carries `data.get("results", [])`. -/
inductive FetchResult where
  | failure
  | success (records : List RawRecord)
deriving DecidableEq, Repr

deriving instance DecidableEq for Except

/-- The upstream endpoint as an oracle over the request parameters
`(q, pageSize, page)`. -/
def Upstream : Type := String → Int → Nat → FetchResult

/-- Ghost record of one issued request: the query string, `pageSize` and
`page` parameters, plus `accLen`, the number of results accumulated at the
moment the request was issued (instrumentation only). -/
structure Request where
  q : String
  pageSize : Int
  page : Nat
  accLen : Nat
deriving DecidableEq, Repr

/-- The query string of the unranged path:
`(bibjson.subject.exact:"{query}" OR bibjson.keywords:"{query}" OR bibjson.title:"{query}")`. -/
def baseQuery (query : String) : String :=
  "(bibjson.subject.exact:\"" ++ query ++ "\" OR bibjson.keywords:\"" ++ query
    ++ "\" OR bibjson.title:\"" ++ query ++ "\")"

/-- The query string of the year-ranged path: the base query with
` AND bibjson.year:{year}` appended. -/
def yearQuery (query : String) (year : Int) : String :=
  baseQuery query ++ " AND bibjson.year:" ++ toString year

/-- Count-down list of `n` consecutive decreasing integers starting at
`hi`. -/
def descRangeAux (hi : Int) : Nat → List Int
  | 0 => []
  | n + 1 => hi :: descRangeAux (hi - 1) n

/-- Python `range(hi, lo - 1, -1)`: the years `hi, hi-1, ..., lo`, empty when
`hi < lo`. -/
def descRange (hi lo : Int) : List Int :=
  descRangeAux hi (hi + 1 - lo).toNat

/-- The inner `for record in records:` loop of the year-ranged path: append
the normalized record (tagged with the ghost fetch `year`), and break once
`len(results) >= size`. A normalization exception propagates. -/
def appendRecords (year : Int) (size : Int) (acc : List (Int × Article)) :
    List RawRecord → Except String (List (Int × Article))
  | [] => .ok acc
  | r :: rs =>
    match normalizeRecord r with
    | .error e => .error e
    | .ok a =>
      if ((acc ++ [(year, a)]).length : Int) ≥ size then .ok (acc ++ [(year, a)])
      else appendRecords year size (acc ++ [(year, a)]) rs

/-- The `while len(results) < size:` page loop for one year. Each iteration
issues a request with `pageSize = min(100, size - len(results))` at the
current `page`; a transport failure or an empty `results` list breaks to the
next year; otherwise the records are appended and `page` is incremented.
`fuel` bounds the recursion; `search_doaj` passes `size.toNat + 1`, which is
sufficient because every iteration either stops or appends at least one
record while `len(results) < size`. Returns the requests issued by this call
together with the updated accumulator. -/
def fetchYearPages (up : Upstream) (query : String) (year : Int) (size : Int)
    (page : Nat) (acc : List (Int × Article)) :
    Nat → Except String (List Request × List (Int × Article))
  | 0 => .ok ([], acc)
  | fuel + 1 =>
    if (acc.length : Int) < size then
      let req : Request :=
        ⟨yearQuery query year, min 100 (size - acc.length), page, acc.length⟩
      match up (yearQuery query year) (min 100 (size - acc.length)) page with
      | .failure => .ok ([req], acc)
      | .success [] => .ok ([req], acc)
      | .success (r :: rs) =>
        match appendRecords year size acc (r :: rs) with
        | .error e => .error e
        | .ok acc2 =>
          match fetchYearPages up query year size (page + 1) acc2 fuel with
          | .error e => .error e
          | .ok (reqs, out) => .ok (req :: reqs, out)
    else .ok ([], acc)

/-- The outer `for year in range(year_to, year_from - 1, -1):` loop: run the
page loop for each year in order, threading the accumulator (which is never
reset between years). -/
def fetchYears (up : Upstream) (query : String) (size : Int) :
    List Int → List (Int × Article) →
    Except String (List Request × List (Int × Article))
  | [], acc => .ok ([], acc)
  | y :: ys, acc =>
    match fetchYearPages up query y size 1 acc (size.toNat + 1) with
    | .error e => .error e
    | .ok (reqs1, acc2) =>
      match fetchYears up query size ys acc2 with
      | .error e => .error e
      | .ok (reqs2, out) => .ok (reqs1 ++ reqs2, out)

/-- The `for record in data.get("results", []):` loop of the unranged path:
normalize every record of the single response, with no cap; a normalization
exception propagates. -/
def normalizeAll : List RawRecord → Except String (List Article)
  | [] => .ok []
  | r :: rs =>
    match normalizeRecord r with
    | .error e => .error e
    | .ok a =>
      match normalizeAll rs with
      | .error e => .error e
      | .ok rest => .ok (a :: rest)

/-- `search_doaj(query, year_from, year_to, size)`. If either year bound is
falsy (`None` or `0`) the unranged path issues a single request with
`pageSize = size`, `page = 1`, returns `[]` on transport failure, and
otherwise normalizes *every* record of the response (no cap). Otherwise the
year-ranged path iterates `range(year_to, year_from - 1, -1)`. The result
pairs the ghost request trace with the returned article list. -/
def search_doaj (up : Upstream) (query : String)
    (year_from year_to : Option Int) (size : Int) :
    Except String (List Request × List Article) :=
  if isFalsy year_from || isFalsy year_to then
    match up (baseQuery query) size 1 with
    | .failure => .ok ([⟨baseQuery query, size, 1, 0⟩], [])
    | .success records =>
      match normalizeAll records with
      | .error e => .error e
      | .ok articles => .ok ([⟨baseQuery query, size, 1, 0⟩], articles)
  else
    (fetchYears up query size (descRange (year_to.getD 0) (year_from.getD 0))
        []).map
      fun p => (p.1, p.2.map Prod.snd)


/-! ### Concrete instances used by counterexamples and witnesses -/

/-- The article produced from a record with no usable fields. -/
def blankArticle : Article := ⟨"", "", "", 0, ""⟩

/-- A raw record with no `bibjson` key. -/
def blankRecord : RawRecord := ⟨none⟩

/-- An upstream whose every response succeeds with zero records. -/
def upEmpty : Upstream := fun _ _ _ => .success []

/-- An upstream whose every call fails at transport level. -/
def upFail : Upstream := fun _ _ _ => .failure

/-- An upstream whose every response carries two records (more than a
`pageSize = 1` request asked for). -/
def upTwoBlanks : Upstream := fun _ _ _ => .success [blankRecord, blankRecord]

/-- A record whose upstream year is the non-digit string `"n/a"`. -/
def recYearNA : RawRecord := ⟨some ⟨none, none, none, some "n/a", none⟩⟩

/-- A record whose `link` list is present but empty. -/
def recEmptyLinks : RawRecord := ⟨some ⟨none, none, none, none, some []⟩⟩

/-- An upstream whose every response carries the empty-`link`-list record. -/
def upEmptyLinks : Upstream := fun _ _ _ => .success [recEmptyLinks]

/-- A record whose first link entry has no `url` and whose second does. -/
def recTwoLinks : RawRecord :=
  ⟨some ⟨none, none, none, none, some [⟨none⟩, ⟨some "http://example.org/a"⟩]⟩⟩

/-- An upstream that returns no records for the unranged base query of
`"x"` and one blank record for every other query string. -/
def upYearOnly : Upstream := fun s _ _ =>
  if s = baseQuery "x" then .success [] else .success [blankRecord]

/-- Definition following the spec's words (§4.1 "Year handling policy"), for
comparison with `search_doaj`: when only one year bound is given, the missing
bound is defaulted — `year_from` to the fixed early floor 1900, `year_to` to
the current calendar year (passed as `currentYear`) — and the descending
year-ranged search runs over the completed range; the unranged path is taken
only when neither bound is given. -/
def searchSpecDefaultedYears (currentYear : Int) (up : Upstream)
    (query : String) (year_from year_to : Option Int) (size : Int) :
    Except String (List Request × List Article) :=
  match year_from, year_to with
  | none, none =>
    match up (baseQuery query) size 1 with
    | .failure => .ok ([⟨baseQuery query, size, 1, 0⟩], [])
    | .success records =>
      match normalizeAll records with
      | .error e => .error e
      | .ok articles => .ok ([⟨baseQuery query, size, 1, 0⟩], articles)
  | yf, yt =>
    (fetchYears up query size
        (descRange (yt.getD currentYear) (yf.getD 1900)) []).map
      fun p => (p.1, p.2.map Prod.snd)

/-- Definition following the spec's words on URL extraction ("pick the first
link entry that exposes a URL attribute; if none exists, the URL is the
empty string"), for comparison with the code's extraction. -/
def urlOfFirstExposing (links : List Link) : String :=
  (links.filterMap Link.url).headD ""

/-! ### Helper lemmas -/

/-- Every member of `descRangeAux hi n` lies in `(hi - n, hi]`. -/
theorem descRangeAux_mem {hi y : Int} {n : Nat} (h : y ∈ descRangeAux hi n) :
    hi - n < y ∧ y ≤ hi := by
  induction n generalizing hi with
  | zero => simp [descRangeAux] at h
  | succ n ih =>
    simp only [descRangeAux, List.mem_cons] at h
    rcases h with rfl | h2
    · push_cast
      omega
    · have := ih h2
      push_cast at this ⊢
      omega

/-- `descRangeAux` is strictly descending. -/
theorem descRangeAux_sorted (hi : Int) (n : Nat) :
    (descRangeAux hi n).Pairwise (· > ·) := by
  induction n generalizing hi with
  | zero => exact List.Pairwise.nil
  | succ n ih =>
    simp only [descRangeAux]
    refine List.Pairwise.cons ?_ (ih (hi - 1))
    intro y hy
    have := descRangeAux_mem hy
    omega

/-- Membership in `descRange hi lo` means lying in the closed interval. -/
theorem descRange_mem {hi lo y : Int} (h : y ∈ descRange hi lo) :
    lo ≤ y ∧ y ≤ hi := by
  have := descRangeAux_mem h
  omega

/-- `descRange hi lo` is strictly descending. -/
theorem descRange_sorted (hi lo : Int) :
    (descRange hi lo).Pairwise (· > ·) :=
  descRangeAux_sorted hi _

/-- `descRange hi lo` is empty when `hi < lo`. -/
theorem descRange_eq_nil {hi lo : Int} (h : hi < lo) : descRange hi lo = [] := by
  unfold descRange
  have h0 : (hi + 1 - lo).toNat = 0 := by omega
  rw [h0]
  rfl

/-- Successful normalization of a whole response preserves its length. -/
theorem normalizeAll_length {rs : List RawRecord} {out : List Article}
    (h : normalizeAll rs = .ok out) : out.length = rs.length := by
  induction rs generalizing out with
  | nil =>
    simp only [normalizeAll] at h
    cases h
    rfl
  | cons r rs ih =>
    simp only [normalizeAll] at h
    cases ha : normalizeRecord r with
    | error e => rw [ha] at h; exact Except.noConfusion h
    | ok a =>
      simp only [ha] at h
      cases hrest : normalizeAll rs with
      | error e => rw [hrest] at h; exact Except.noConfusion h
      | ok rest =>
        simp only [hrest] at h
        cases h
        simp [ih hrest]

/-- The inner append loop only ever extends the accumulator, and every
appended pair is tagged with the fetch year. -/
theorem appendRecords_shape {year size : Int} {acc out : List (Int × Article)}
    {rs : List RawRecord} (h : appendRecords year size acc rs = .ok out) :
    ∃ new, out = acc ++ new ∧ ∀ p ∈ new, p.1 = year := by
  induction rs generalizing acc with
  | nil =>
    simp only [appendRecords] at h
    cases h
    exact ⟨[], by simp⟩
  | cons r rs ih =>
    simp only [appendRecords] at h
    cases ha : normalizeRecord r with
    | error e => rw [ha] at h; exact Except.noConfusion h
    | ok a =>
      simp only [ha] at h
      split at h
      · cases h
        exact ⟨[(year, a)], rfl, by simp⟩
      · obtain ⟨new, hnew, htags⟩ := ih h
        refine ⟨(year, a) :: new, by simp [hnew], ?_⟩
        intro p hp
        rcases List.mem_cons.mp hp with hp | hp
        · simp [hp]
        · exact htags p hp

/-- If the append loop starts strictly below the cap, it never exceeds the
cap. -/
theorem appendRecords_length_le {year size : Int} {acc out : List (Int × Article)}
    {rs : List RawRecord} (hlt : (acc.length : Int) < size)
    (h : appendRecords year size acc rs = .ok out) :
    (out.length : Int) ≤ size := by
  induction rs generalizing acc with
  | nil =>
    simp only [appendRecords] at h
    cases h
    omega
  | cons r rs ih =>
    simp only [appendRecords] at h
    cases ha : normalizeRecord r with
    | error e => rw [ha] at h; exact Except.noConfusion h
    | ok a =>
      simp only [ha] at h
      split at h
      case isTrue hc =>
        cases h
        simp only [List.length_append, List.length_cons, List.length_nil]
        push_cast
        omega
      case isFalse hc =>
        refine ih ?_ h
        simp only [List.length_append, List.length_cons, List.length_nil] at hc ⊢
        push_cast at hc ⊢
        omega


/-- The page loop only ever extends the accumulator, and every appended pair
is tagged with the fetch year. -/
theorem fetchYearPages_shape {up : Upstream} {query : String} {year size : Int}
    {page fuel : Nat} {acc out : List (Int × Article)} {reqs : List Request}
    (h : fetchYearPages up query year size page acc fuel = .ok (reqs, out)) :
    ∃ new, out = acc ++ new ∧ ∀ p ∈ new, p.1 = year := by
  induction fuel generalizing page acc reqs out with
  | zero =>
    simp only [fetchYearPages] at h
    cases h
    exact ⟨[], by simp⟩
  | succ fuel ih =>
    simp only [fetchYearPages] at h
    split at h
    · cases hf : up (yearQuery query year) (min 100 (size - acc.length)) page with
      | failure =>
        simp only [hf] at h
        cases h
        exact ⟨[], by simp⟩
      | success records =>
        cases records with
        | nil =>
          simp only [hf] at h
          cases h
          exact ⟨[], by simp⟩
        | cons r rs =>
          simp only [hf] at h
          cases ha : appendRecords year size acc (r :: rs) with
          | error e => rw [ha] at h; exact Except.noConfusion h
          | ok acc2 =>
            simp only [ha] at h
            cases hr : fetchYearPages up query year size (page + 1) acc2 fuel with
            | error e => rw [hr] at h; exact Except.noConfusion h
            | ok p =>
              obtain ⟨reqs2, out2⟩ := p
              simp only [hr] at h
              cases h
              obtain ⟨new1, hnew1, ht1⟩ := appendRecords_shape ha
              obtain ⟨new2, hnew2, ht2⟩ := ih hr
              refine ⟨new1 ++ new2, by simp [hnew2, hnew1], ?_⟩
              intro p hp
              rcases List.mem_append.mp hp with hp | hp
              · exact ht1 p hp
              · exact ht2 p hp
    · cases h
      exact ⟨[], by simp⟩

/-- If the accumulator respects the cap (as a natural-number bound) on entry
to the page loop, it respects it on exit. -/
theorem fetchYearPages_length {up : Upstream} {query : String} {year size : Int}
    {page fuel : Nat} {acc out : List (Int × Article)} {reqs : List Request}
    (hle : acc.length ≤ size.toNat)
    (h : fetchYearPages up query year size page acc fuel = .ok (reqs, out)) :
    out.length ≤ size.toNat := by
  induction fuel generalizing page acc reqs out with
  | zero =>
    simp only [fetchYearPages] at h
    cases h
    exact hle
  | succ fuel ih =>
    simp only [fetchYearPages] at h
    split at h
    case isTrue hlt =>
      cases hf : up (yearQuery query year) (min 100 (size - acc.length)) page with
      | failure =>
        simp only [hf] at h
        cases h
        exact hle
      | success records =>
        cases records with
        | nil =>
          simp only [hf] at h
          cases h
          exact hle
        | cons r rs =>
          simp only [hf] at h
          cases ha : appendRecords year size acc (r :: rs) with
          | error e => rw [ha] at h; exact Except.noConfusion h
          | ok acc2 =>
            simp only [ha] at h
            cases hr : fetchYearPages up query year size (page + 1) acc2 fuel with
            | error e => rw [hr] at h; exact Except.noConfusion h
            | ok p =>
              obtain ⟨reqs2, out2⟩ := p
              simp only [hr] at h
              cases h
              have h2 := appendRecords_length_le hlt ha
              exact ih (by omega) hr
    case isFalse hge =>
      cases h
      exact hle

/-- Every request issued by the page loop targets the year-constrained query
at consecutive page indices starting from the entry page, asks for
`min(100, size - len(results))` items where `accLen` is the number of results
accumulated at issue time, and is only issued while `accLen < size`. -/
theorem fetchYearPages_trace {up : Upstream} {query : String} {year size : Int}
    {page fuel : Nat} {acc out : List (Int × Article)} {reqs : List Request}
    (h : fetchYearPages up query year size page acc fuel = .ok (reqs, out)) :
    reqs.map Request.page = List.range' page reqs.length ∧
      ∀ r ∈ reqs, r.q = yearQuery query year ∧
        r.pageSize = min 100 (size - (r.accLen : Int)) ∧ (r.accLen : Int) < size := by
  induction fuel generalizing page acc reqs out with
  | zero =>
    simp only [fetchYearPages] at h
    cases h
    exact ⟨rfl, by simp⟩
  | succ fuel ih =>
    simp only [fetchYearPages] at h
    split at h
    case isTrue hlt =>
      cases hf : up (yearQuery query year) (min 100 (size - acc.length)) page with
      | failure =>
        simp only [hf] at h
        cases h
        refine ⟨rfl, ?_⟩
        intro r hr
        rcases List.mem_singleton.mp hr with rfl
        exact ⟨rfl, rfl, hlt⟩
      | success records =>
        cases records with
        | nil =>
          simp only [hf] at h
          cases h
          refine ⟨rfl, ?_⟩
          intro r hr
          rcases List.mem_singleton.mp hr with rfl
          exact ⟨rfl, rfl, hlt⟩
        | cons r rs =>
          simp only [hf] at h
          cases ha : appendRecords year size acc (r :: rs) with
          | error e => rw [ha] at h; exact Except.noConfusion h
          | ok acc2 =>
            simp only [ha] at h
            cases hrec : fetchYearPages up query year size (page + 1) acc2 fuel with
            | error e => rw [hrec] at h; exact Except.noConfusion h
            | ok p =>
              obtain ⟨reqs2, out2⟩ := p
              simp only [hrec] at h
              cases h
              obtain ⟨hmap, hall⟩ := ih hrec
              constructor
              · simp only [List.map_cons, hmap, List.length_cons]
                rw [List.range'_succ]
              · intro rq hrq
                rcases List.mem_cons.mp hrq with rfl | hrq
                · exact ⟨rfl, rfl, hlt⟩
                · exact hall rq hrq
    case isFalse hge =>
      cases h
      exact ⟨rfl, by simp⟩

/-- A list whose tags are all equal is weakly descending in the tag. -/
theorem pairwise_of_const_tag {l : List (Int × Article)} {y : Int}
    (h : ∀ p ∈ l, p.1 = y) :
    l.Pairwise (fun a b => b.1 ≤ a.1) := by
  induction l with
  | nil => exact List.Pairwise.nil
  | cons p l ih =>
    refine List.Pairwise.cons ?_ (ih fun q hq => h q (List.mem_cons_of_mem p hq))
    intro q hq
    rw [h q (List.mem_cons_of_mem p hq), h p (List.mem_cons_self p l)]

/-- The year loop only ever extends the accumulator, and every appended pair
is tagged with one of the iterated years. -/
theorem fetchYears_shape {up : Upstream} {query : String} {size : Int}
    {ys : List Int} {acc out : List (Int × Article)} {reqs : List Request}
    (h : fetchYears up query size ys acc = .ok (reqs, out)) :
    ∃ new, out = acc ++ new ∧ ∀ p ∈ new, p.1 ∈ ys := by
  induction ys generalizing acc reqs out with
  | nil =>
    simp only [fetchYears] at h
    cases h
    exact ⟨[], by simp⟩
  | cons y ys ih =>
    simp only [fetchYears] at h
    cases hp : fetchYearPages up query y size 1 acc (size.toNat + 1) with
    | error e => rw [hp] at h; exact Except.noConfusion h
    | ok p =>
      obtain ⟨reqs1, acc2⟩ := p
      simp only [hp] at h
      cases hy : fetchYears up query size ys acc2 with
      | error e => rw [hy] at h; exact Except.noConfusion h
      | ok p2 =>
        obtain ⟨reqs2, out2⟩ := p2
        simp only [hy] at h
        cases h
        obtain ⟨new1, hnew1, ht1⟩ := fetchYearPages_shape hp
        obtain ⟨new2, hnew2, ht2⟩ := ih hy
        refine ⟨new1 ++ new2, by simp [hnew2, hnew1], ?_⟩
        intro p hp2
        rcases List.mem_append.mp hp2 with hp2 | hp2
        · exact (ht1 p hp2) ▸ List.mem_cons_self y ys
        · exact List.mem_cons_of_mem y (ht2 p hp2)

/-- If the accumulator respects the cap on entry to the year loop, it
respects it on exit: the returned collection of the ranged path never
exceeds `max(size, 0)` elements. -/
theorem fetchYears_length {up : Upstream} {query : String} {size : Int}
    {ys : List Int} {acc out : List (Int × Article)} {reqs : List Request}
    (hle : acc.length ≤ size.toNat)
    (h : fetchYears up query size ys acc = .ok (reqs, out)) :
    out.length ≤ size.toNat := by
  induction ys generalizing acc reqs out with
  | nil =>
    simp only [fetchYears] at h
    cases h
    exact hle
  | cons y ys ih =>
    simp only [fetchYears] at h
    cases hp : fetchYearPages up query y size 1 acc (size.toNat + 1) with
    | error e => rw [hp] at h; exact Except.noConfusion h
    | ok p =>
      obtain ⟨reqs1, acc2⟩ := p
      simp only [hp] at h
      cases hy : fetchYears up query size ys acc2 with
      | error e => rw [hy] at h; exact Except.noConfusion h
      | ok p2 =>
        obtain ⟨reqs2, out2⟩ := p2
        simp only [hy] at h
        cases h
        exact ih (fetchYearPages_length hle hp) hy

/-- Iterating strictly descending years keeps the tagged accumulator weakly
descending in the fetch year. -/
theorem fetchYears_sorted {up : Upstream} {query : String} {size : Int}
    {ys : List Int} {acc out : List (Int × Article)} {reqs : List Request}
    (hys : ys.Pairwise (· > ·))
    (hacc : acc.Pairwise (fun a b => b.1 ≤ a.1))
    (hcross : ∀ p ∈ acc, ∀ y ∈ ys, y ≤ p.1)
    (h : fetchYears up query size ys acc = .ok (reqs, out)) :
    out.Pairwise (fun a b => b.1 ≤ a.1) := by
  induction ys generalizing acc reqs out with
  | nil =>
    simp only [fetchYears] at h
    cases h
    exact hacc
  | cons y ys ih =>
    simp only [fetchYears] at h
    cases hp : fetchYearPages up query y size 1 acc (size.toNat + 1) with
    | error e => rw [hp] at h; exact Except.noConfusion h
    | ok p =>
      obtain ⟨reqs1, acc2⟩ := p
      simp only [hp] at h
      cases hy : fetchYears up query size ys acc2 with
      | error e => rw [hy] at h; exact Except.noConfusion h
      | ok p2 =>
        obtain ⟨reqs2, out2⟩ := p2
        simp only [hy] at h
        cases h
        obtain ⟨new1, hnew1, ht1⟩ := fetchYearPages_shape hp
        have hy_gt : ∀ z ∈ ys, z < y := fun z hz =>
          (List.pairwise_cons.mp hys).1 z hz
        refine ih hys.of_cons ?_ ?_ hy
        · rw [hnew1, List.pairwise_append]
          refine ⟨hacc, pairwise_of_const_tag ht1, ?_⟩
          intro a ha b hb
          rw [ht1 b hb]
          exact hcross a ha y (List.mem_cons_self y ys)
        · intro p hp2 z hz
          rw [hnew1] at hp2
          rcases List.mem_append.mp hp2 with hp2 | hp2
          · exact hcross p hp2 z (List.mem_cons_of_mem y hz)
          · rw [ht1 p hp2]
            exact le_of_lt (hy_gt z hz)

/-- `pyIsDigit` agrees with the standard library's digit-string test. -/
theorem pyIsDigit_eq_isNat (s : String) : pyIsDigit s = s.isNat := by
  simp [pyIsDigit, String.isNat, String.all_eq]

/-- A digit-only string (in the sense of `pyIsDigit`) parses: `toNat?`
returns `some` of its value. -/
theorem toNatQ_eq_some_of_pyIsDigit {s : String} (h : pyIsDigit s = true) :
    s.toNat? = some ((s.toNat?).getD 0) := by
  have hn : s.isNat = true := (pyIsDigit_eq_isNat s) ▸ h
  simp [String.toNat?, hn]

/-- Field characterization of a successful normalization: the `Year` field is
the digit-parse of the upstream year string with fallback `0`, and the `URL`
field is the `url` of the *first* link entry (empty string when the `link`
key is missing or the first entry has no `url`). -/
theorem normalizeRecord_fields {r : RawRecord} {a : Article}
    (h : normalizeRecord r = .ok a) :
    a.Year = (if pyIsDigit ((r.bibjson.getD Bibjson.empty).year.getD "")
        then ((((r.bibjson.getD Bibjson.empty).year.getD "")).toNat?).getD 0
        else 0) ∧
      ((r.bibjson.getD Bibjson.empty).link = none → a.URL = "") ∧
      (∀ l ls, (r.bibjson.getD Bibjson.empty).link = some (l :: ls) →
        a.URL = l.url.getD "") := by
  simp only [normalizeRecord] at h
  rcases hbl : (r.bibjson.getD Bibjson.empty).link with _ | links
  · simp only [hbl] at h
    cases h
    refine ⟨rfl, fun _ => rfl, ?_⟩
    intro l ls hls
    exact absurd hls (by simp)
  · cases links with
    | nil => rw [hbl] at h; exact Except.noConfusion h
    | cons l ls =>
      simp only [hbl] at h
      cases h
      refine ⟨rfl, fun hc => absurd hc (by simp), ?_⟩
      intro l2 ls2 hls
      have hll : l = l2 := (List.cons.inj (Option.some.inj hls)).1
      rw [← hll]

/-! ### Claims -/

/-- C1 (counterexample): the returned sequence can exceed `size`. In the
unranged path the code appends *every* record of the single response, so an
upstream response carrying 2 records against `size = 1` yields 2 results;
and in the ranged path with a negative `size` the empty result still has
length `0 > size`. -/
theorem c1_counterexample :
    search_doaj upTwoBlanks "x" none none 1 =
        .ok ([⟨baseQuery "x", 1, 1, 0⟩], [blankArticle, blankArticle]) ∧
      ¬(([blankArticle, blankArticle].length : Int) ≤ 1) ∧
      search_doaj upTwoBlanks "x" (some 2020) (some 2021) (-1) = .ok ([], []) ∧
      ¬((([] : List Article).length : Int) ≤ -1) := by
  exact ⟨by decide, by decide, by decide, by decide⟩

/-- C1 (amended): the returned sequence has length at most `max(size, 0)`
provided the single unranged response respects the requested
`pageSize = size` (the year-ranged path needs no such hypothesis: its
append loop enforces the cap itself). -/
theorem c1_amended (up : Upstream) (q : String) (yf yt : Option Int)
    (size : Int)
    (hup : ∀ recs, up (baseQuery q) size 1 = .success recs →
      recs.length ≤ size.toNat)
    (tr : List Request) (arts : List Article)
    (h : search_doaj up q yf yt size = .ok (tr, arts)) :
    arts.length ≤ size.toNat := by
  unfold search_doaj at h
  split at h
  · cases hf : up (baseQuery q) size 1 with
    | failure =>
      simp only [hf] at h
      cases h
      simp
    | success records =>
      simp only [hf] at h
      cases hn : normalizeAll records with
      | error e => rw [hn] at h; exact Except.noConfusion h
      | ok articles =>
        simp only [hn] at h
        cases h
        rw [normalizeAll_length hn]
        exact hup records hf
  · cases hy : fetchYears up q size (descRange (yt.getD 0) (yf.getD 0)) [] with
    | error e => rw [hy] at h; exact Except.noConfusion h
    | ok p =>
      obtain ⟨reqs, tagged⟩ := p
      rw [hy] at h
      simp only [Except.map] at h
      cases h
      rw [List.length_map]
      exact fetchYears_length (by simp) hy

/-- C1 (witness): the amended bound at a concrete input. -/
theorem c1_witness : [blankArticle, blankArticle].length ≤ (2 : Int).toNat :=
  c1_amended upTwoBlanks "x" none none 2
    (fun recs hrecs => by
      have h2 : [blankRecord, blankRecord] = recs := FetchResult.success.inj hrecs
      rw [← h2]
      decide)
    [⟨baseQuery "x", 2, 1, 0⟩] [blankArticle, blankArticle] (by decide)

/-- C2 (counterexample): for a non-digit upstream year (`"n/a"`) and for a
missing year the produced `Article` carries the *integer* `0` in its `Year`
field — the field is always present, never absent/null. -/
theorem c2_counterexample :
    normalizeRecord recYearNA = .ok blankArticle ∧
      blankArticle.Year = 0 ∧
      normalizeRecord blankRecord = .ok blankArticle ∧
      pyIsDigit "n/a" = false := by
  exact ⟨by decide, rfl, by decide, by decide⟩

/-- C2 (amended): when the upstream year string is composed entirely of
decimal digits (and nonempty), `Year` is its parsed integer value; when the
year is missing or non-digit, `Year` is the integer `0` (not absent). -/
theorem c2_amended (r : RawRecord) (a : Article)
    (h : normalizeRecord r = .ok a) :
    (pyIsDigit ((r.bibjson.getD Bibjson.empty).year.getD "") = true →
      ((r.bibjson.getD Bibjson.empty).year.getD "").toNat? = some a.Year) ∧
      (pyIsDigit ((r.bibjson.getD Bibjson.empty).year.getD "") = false →
        a.Year = 0) := by
  obtain ⟨hy, _, _⟩ := normalizeRecord_fields h
  constructor
  · intro hd
    rw [hy, if_pos hd]
    exact toNatQ_eq_some_of_pyIsDigit hd
  · intro hd
    rw [hy, if_neg (by simp [hd])]

/-- C2 (witness): the amended year rule at a concrete non-digit input. -/
theorem c2_witness :
    pyIsDigit ((recYearNA.bibjson.getD Bibjson.empty).year.getD "") = false ∧
      blankArticle.Year = 0 :=
  ⟨by decide, (c2_amended recYearNA blankArticle (by decide)).2 (by decide)⟩

/-- C3 (code bug): normalizing a record whose `link` list is present but
*empty* raises `IndexError` (`bibjson.get("link", [{}])[0]` indexes an empty
list), and the exception propagates out of `search_doaj` to the caller on
both the unranged and the year-ranged path — contradicting the defensive
never-raising extraction the spec describes. -/
theorem c3_empty_link_raises :
    normalizeRecord recEmptyLinks = .error "IndexError: list index out of range" ∧
      search_doaj upEmptyLinks "x" none none 5 =
        .error "IndexError: list index out of range" ∧
      search_doaj upEmptyLinks "x" (some 2021) (some 2021) 5 =
        .error "IndexError: list index out of range" := by
  exact ⟨rfl, by decide, by decide⟩

/-- C4 (counterexample): with only `year_from` given, no defaulting happens.
The call takes the unranged path (a single year-unconstrained request,
returning no records under `upYearOnly`), whereas the spec's defaulted
behavior (`searchSpecDefaultedYears`, completing the range to the current
year 2024) would issue the year-constrained query and return a record. -/
theorem c4_counterexample :
    search_doaj upYearOnly "x" (some 2024) none 1 =
        .ok ([⟨baseQuery "x", 1, 1, 0⟩], []) ∧
      searchSpecDefaultedYears 2024 upYearOnly "x" (some 2024) none 1 =
        .ok ([⟨yearQuery "x" 2024, 1, 1, 0⟩], [blankArticle]) ∧
      search_doaj upYearOnly "x" (some 2024) none 1 ≠
        searchSpecDefaultedYears 2024 upYearOnly "x" (some 2024) none 1 := by
  exact ⟨by decide, by decide, by decide⟩

/-- C4 (amended): when either year bound is absent (`None`), no defaulting
occurs: the call is identical to a call with no year bounds at all — the
unranged single-request path, ignoring the other bound entirely. -/
theorem c4_amended (up : Upstream) (q : String) (b : Option Int) (size : Int) :
    search_doaj up q none b size = search_doaj up q none none size ∧
      search_doaj up q b none size = search_doaj up q none none size := by
  constructor
  · rfl
  · cases b with
    | none => rfl
    | some n => simp [search_doaj, isFalsy]

/-- C5 (counterexample): the unranged path does not request
`min(100, size - len(results))` items: with `size = 500` its single request
asks for `pageSize = 500`, not `100`. -/
theorem c5_counterexample :
    search_doaj upEmpty "x" none none 500 =
        .ok ([⟨baseQuery "x", 500, 1, 0⟩], []) ∧
      (500 : Int) ≠ min 100 (500 - 0) := by
  exact ⟨by decide, by decide⟩

/-- C5 (amended): in the year-ranged path every per-year request targets the
year-constrained query, pages are consecutive starting from the entry page
(1 in `search_doaj`), each request asks for `min(100, size - len(results))`
items, and requests are only issued while `len(results) < size`; the
unranged path instead issues exactly one request with `page = 1` and
`pageSize = size`. -/
theorem c5_amended (up : Upstream) (query : String) (year size : Int)
    (page fuel : Nat) (acc out : List (Int × Article)) (reqs : List Request)
    (h : fetchYearPages up query year size page acc fuel = .ok (reqs, out))
    (up2 : Upstream) (q2 : String) (sz2 : Int) (tr : List Request)
    (arts : List Article)
    (h2 : search_doaj up2 q2 none none sz2 = .ok (tr, arts)) :
    (reqs.map Request.page = List.range' page reqs.length ∧
      ∀ r ∈ reqs, r.q = yearQuery query year ∧
        r.pageSize = min 100 (size - (r.accLen : Int)) ∧
        (r.accLen : Int) < size) ∧
      tr = [⟨baseQuery q2, sz2, 1, 0⟩] := by
  refine ⟨fetchYearPages_trace h, ?_⟩
  unfold search_doaj at h2
  split at h2
  · cases hf : up2 (baseQuery q2) sz2 1 with
    | failure =>
      simp only [hf] at h2
      cases h2
      rfl
    | success records =>
      simp only [hf] at h2
      cases hn : normalizeAll records with
      | error e => rw [hn] at h2; exact Except.noConfusion h2
      | ok articles =>
        simp only [hn] at h2
        cases h2
        rfl
  · exact absurd rfl (by assumption)

/-- C5 (witness): the amended pagination behavior at a concrete input — two
pages for year 2022 (pages 1 then 2, `pageSize` 3 then 1), and a single
unranged request with `pageSize = size = 5`. -/
theorem c5_witness :
    (([⟨yearQuery "x" 2022, 3, 1, 0⟩,
          ⟨yearQuery "x" 2022, 1, 2, 2⟩] : List Request).map Request.page =
        List.range' 1 2 ∧
      ∀ r ∈ ([⟨yearQuery "x" 2022, 3, 1, 0⟩,
          ⟨yearQuery "x" 2022, 1, 2, 2⟩] : List Request),
        r.q = yearQuery "x" 2022 ∧
          r.pageSize = min 100 (3 - (r.accLen : Int)) ∧
          (r.accLen : Int) < 3) ∧
      ([⟨baseQuery "x", 5, 1, 0⟩] : List Request) = [⟨baseQuery "x", 5, 1, 0⟩] :=
  c5_amended upTwoBlanks "x" 2022 3 1 4 []
    [(2022, blankArticle), (2022, blankArticle), (2022, blankArticle)]
    [⟨yearQuery "x" 2022, 3, 1, 0⟩, ⟨yearQuery "x" 2022, 1, 2, 2⟩] (by decide)
    upEmpty "x" 5 [⟨baseQuery "x", 5, 1, 0⟩] [] (by decide)

/-- C6 (confirmed): with both bounds given (nonzero, `year_from ≤ year_to`),
the ranged path iterates `descRange year_to year_from`, which is strictly
descending; the tagged accumulation is weakly descending in the fetch year —
every record fetched for year `y` precedes every record fetched for any
`y' < y` — and every fetch year lies in `[year_from, year_to]`.
`search_doaj` is the tag-erasing projection of that accumulation. -/
theorem c6_descending (up : Upstream) (q : String) (yf yt size : Int)
    (reqs : List Request) (tagged : List (Int × Article))
    (h1 : yf ≠ 0) (h2 : yt ≠ 0) (_h3 : yf ≤ yt) :
    search_doaj up q (some yf) (some yt) size =
        (fetchYears up q size (descRange yt yf) []).map
          (fun p => (p.1, p.2.map Prod.snd)) ∧
      (descRange yt yf).Pairwise (· > ·) ∧
      (fetchYears up q size (descRange yt yf) [] = .ok (reqs, tagged) →
        tagged.Pairwise (fun a b => b.1 ≤ a.1) ∧
          ∀ p ∈ tagged, yf ≤ p.1 ∧ p.1 ≤ yt) := by
  have hf : isFalsy (some yf) = false := by simp [isFalsy, h1]
  have ht : isFalsy (some yt) = false := by simp [isFalsy, h2]
  refine ⟨?_, descRange_sorted yt yf, ?_⟩
  · unfold search_doaj
    rw [hf, ht]
    simp
  · intro hok
    constructor
    · exact fetchYears_sorted (descRange_sorted yt yf) List.Pairwise.nil
        (by simp) hok
    · intro p hp
      obtain ⟨new, hnew, htag⟩ := fetchYears_shape hok
      rw [hnew] at hp
      simp only [List.nil_append] at hp
      exact descRange_mem (htag p hp)

/-- C6 (witness): descending-year accumulation at a concrete input. -/
theorem c6_witness :
    search_doaj upTwoBlanks "x" (some 2020) (some 2022) 3 =
        (fetchYears upTwoBlanks "x" 3 (descRange 2022 2020) []).map
          (fun p => (p.1, p.2.map Prod.snd)) ∧
      (descRange 2022 2020).Pairwise (· > ·) ∧
      (fetchYears upTwoBlanks "x" 3 (descRange 2022 2020) [] =
          .ok ([⟨yearQuery "x" 2022, 3, 1, 0⟩, ⟨yearQuery "x" 2022, 1, 2, 2⟩],
            [(2022, blankArticle), (2022, blankArticle), (2022, blankArticle)]) →
        List.Pairwise (fun a b => b.1 ≤ a.1)
            ([(2022, blankArticle), (2022, blankArticle),
              (2022, blankArticle)] : List (Int × Article)) ∧
          ∀ p ∈ ([(2022, blankArticle), (2022, blankArticle),
              (2022, blankArticle)] : List (Int × Article)),
            2020 ≤ p.1 ∧ p.1 ≤ 2022) :=
  c6_descending upTwoBlanks "x" 2020 2022 3
    [⟨yearQuery "x" 2022, 3, 1, 0⟩, ⟨yearQuery "x" 2022, 1, 2, 2⟩]
    [(2022, blankArticle), (2022, blankArticle), (2022, blankArticle)]
    (by decide) (by decide) (by decide)

/-- C7 (confirmed): a transport-level failure is localized. (i) A failing
page fetch makes the page loop return the accumulated records unchanged as a
success (records from prior successful pages of the same call are in `acc`
and are preserved); (ii) when year `y`'s first fetch fails, the year loop
continues with the remaining years carrying the same accumulator, merely
recording the failed request — no exception reaches the caller; (iii) in the
unranged path a transport failure terminates the call with the empty
collection (nothing had been collected before the single request). -/
theorem c7_failure_localized (up : Upstream) (q : String) (y : Int)
    (ys : List Int) (size : Int) (acc : List (Int × Article))
    (page fuel : Nat)
    (hlt : (acc.length : Int) < size)
    (hfailp : up (yearQuery q y) (min 100 (size - acc.length)) page = .failure)
    (hfail1 : up (yearQuery q y) (min 100 (size - acc.length)) 1 = .failure)
    (up2 : Upstream) (q2 : String) (sz2 : Int)
    (hfail2 : up2 (baseQuery q2) sz2 1 = .failure) :
    fetchYearPages up q y size page acc (fuel + 1) =
        .ok ([⟨yearQuery q y, min 100 (size - acc.length), page, acc.length⟩],
          acc) ∧
      fetchYears up q size (y :: ys) acc =
        (fetchYears up q size ys acc).map
          (fun p => (⟨yearQuery q y, min 100 (size - acc.length), 1,
            acc.length⟩ :: p.1, p.2)) ∧
      search_doaj up2 q2 none none sz2 = .ok ([⟨baseQuery q2, sz2, 1, 0⟩], []) := by
  have step : ∀ pg : Nat, ∀ fl : Nat,
      up (yearQuery q y) (min 100 (size - acc.length)) pg = .failure →
      fetchYearPages up q y size pg acc (fl + 1) =
        .ok ([⟨yearQuery q y, min 100 (size - acc.length), pg, acc.length⟩],
          acc) := by
    intro pg fl hfl
    simp only [fetchYearPages]
    rw [if_pos hlt, hfl]
  refine ⟨step page fuel hfailp, ?_, ?_⟩
  · simp only [fetchYears]
    rw [step 1 size.toNat hfail1]
    cases hrest : fetchYears up q size ys acc with
    | error e => simp [hrest, Except.map]
    | ok p =>
      obtain ⟨reqs2, out2⟩ := p
      simp [hrest, Except.map]
  · unfold search_doaj
    split
    · rw [hfail2]
    · exact absurd rfl (by assumption)

/-- C7 (witness): failure localization at a concrete always-failing
upstream. -/
theorem c7_witness :
    fetchYearPages upFail "x" 2021 5 3 [] 6 =
        .ok ([⟨yearQuery "x" 2021,
          min 100 (5 - (([] : List (Int × Article))).length), 3, 0⟩], []) ∧
      fetchYears upFail "x" 5 [2021, 2020] [] =
        (fetchYears upFail "x" 5 [2020] []).map
          (fun p => (⟨yearQuery "x" 2021,
            min 100 (5 - (([] : List (Int × Article))).length), 1,
            0⟩ :: p.1, p.2)) ∧
      search_doaj upFail "x" none none 5 = .ok ([⟨baseQuery "x", 5, 1, 0⟩], []) :=
  c7_failure_localized upFail "x" 2021 [2020] 5 [] 3 5 (by decide) (by decide)
    (by decide) upFail "x" 5 (by decide)

/-- C8 (counterexample): the code takes the *first* link entry, not the
first link entry exposing a URL: on a record whose first link entry has no
`url` and whose second does, the produced `URL` is the empty string, while
the spec-described extraction (`urlOfFirstExposing`) yields the second
entry's URL. -/
theorem c8_counterexample :
    normalizeRecord recTwoLinks = .ok blankArticle ∧
      blankArticle.URL = "" ∧
      (recTwoLinks.bibjson.getD Bibjson.empty).link =
        some [⟨none⟩, ⟨some "http://example.org/a"⟩] ∧
      urlOfFirstExposing [⟨none⟩, ⟨some "http://example.org/a"⟩] =
        "http://example.org/a" ∧
      ("" : String) ≠ "http://example.org/a" := by
  exact ⟨by decide, rfl, by decide, by decide, by decide⟩

/-- C8 (amended): the `URL` field is the `url` of the *first* link entry
when the link list is nonempty (empty string when that entry exposes no
`url`), and the empty string when the link list is missing entirely. -/
theorem c8_amended (r : RawRecord) (a : Article)
    (h : normalizeRecord r = .ok a) :
    ((r.bibjson.getD Bibjson.empty).link = none → a.URL = "") ∧
      (∀ l ls, (r.bibjson.getD Bibjson.empty).link = some (l :: ls) →
        a.URL = l.url.getD "") := by
  obtain ⟨_, h1, h2⟩ := normalizeRecord_fields h
  exact ⟨h1, h2⟩

/-- C8 (witness): the amended URL rule at the two-link record. -/
theorem c8_witness : blankArticle.URL = (⟨none⟩ : Link).url.getD "" :=
  (c8_amended recTwoLinks blankArticle (by decide)).2 ⟨none⟩
    [⟨some "http://example.org/a"⟩] (by decide)

/-- C9 (confirmed): a year bound equal to `0` is falsy in the guard
`if not year_from or not year_to`, so it is treated exactly like an absent
bound: the call coincides with the fully unranged call, whatever the other
bound is. -/
theorem c9_zero_bound_unranged (up : Upstream) (q : String) (b : Option Int)
    (size : Int) :
    search_doaj up q (some 0) b size = search_doaj up q none none size ∧
      search_doaj up q b (some 0) size = search_doaj up q none none size := by
  constructor
  · simp [search_doaj, isFalsy]
  · cases b with
    | none => rfl
    | some n => simp [search_doaj, isFalsy]

/-- C10 (confirmed): with both bounds given (nonzero) and
`year_from > year_to`, the descending year range is empty, so `search_doaj`
returns the empty sequence and issues no outbound request (empty trace). -/
theorem c10_empty_range (up : Upstream) (q : String) (yf yt size : Int)
    (h1 : yf ≠ 0) (h2 : yt ≠ 0) (h3 : yt < yf) :
    search_doaj up q (some yf) (some yt) size = .ok ([], []) := by
  have hf : isFalsy (some yf) = false := by simp [isFalsy, h1]
  have ht : isFalsy (some yt) = false := by simp [isFalsy, h2]
  unfold search_doaj
  rw [hf, ht]
  simp [descRange_eq_nil h3, fetchYears, Except.map]

/-- C10 (witness): the empty-range behavior at a concrete inverted range. -/
theorem c10_witness :
    search_doaj upFail "x" (some 2025) (some 2020) 20 = .ok ([], []) :=
  c10_empty_range upFail "x" 2025 2020 20 (by decide) (by decide) (by decide)
